import Mathlib

/-!
Shallow embedding of the Mannheim DS Planner client-side planning state
engine (static/js/app.js): the selection store, its mutation operations,
the storage adapter, the backup import/export, and the derived summary /
per-area progress computations.

JavaScript conventions modelled explicitly:
  - `x || y` on numbers treats 0 (and null/undefined, modelled as
    Option.none) as falsy: `jsOrInt` / `jsOrNat`.
  - `x || y` on strings treats the empty string (and null) as falsy:
    `jsOrStr`, and `if (s)` on an optional string is `jsTruthyStr`.
  - `parseInt` of a decimal numeral truncates toward zero: `jsParseInt`;
    a non-numeric field is NaN, modelled as `Option.none` input.
ECTS amounts are modelled as integers (catalog values and parseInt
results are integral); ratios (progress values) live in ℚ.
-/

namespace Planner

/-- A catalog course record as served by /api/catalog. -/
structure Course where
  id : String
  ects : Int
  is_additional_course : Bool
  max_ects : Option Int
  area_id : Option String
deriving Repr, DecidableEq

/-- A user selection as stored in the selection list. -/
structure Selection where
  course_id : String
  status : String
  selection_id : String
  ects : Option Int
deriving Repr, DecidableEq

/-- An area rule from the server-side rules object (`rules.areas[i]`). -/
structure AreaRule where
  id : String
  name : String
  min_ects : Nat
  max_ects : Option Int
  required_ects : Option Int
deriving Repr, DecidableEq

/-- JS `a || b` for numbers already coerced from null/undefined to 0. -/
def jsOrInt (a b : Int) : Int := if a = 0 then b else a

/-- JS `a || b` for non-negative numbers. -/
def jsOrNat (a b : Nat) : Nat := if a = 0 then b else a

/-- JS `a || b` for an optional string: null/undefined and `""` are falsy. -/
def jsOrStr (a : Option String) (b : String) : String :=
  match a with
  | none => b
  | some s => if s = "" then b else s

/-- JS truthiness of an optional string argument (`if (selectionId)`). -/
def jsTruthyStr : Option String → Bool
  | none => false
  | some s => s != ""

/-- The leading digit run of a character list: `none` when it is empty
(parseInt's NaN), else the accumulated value. -/
def leadingDigits : List Char → Option Nat → Option Nat
  | [], acc => acc
  | c :: rest, acc =>
    if c.isDigit then
      leadingDigits rest (some (acc.getD 0 * 10 + (c.toNat - 48)))
    else acc

/-- JS `parseInt` on the raw input-field string: an optional sign followed
by the leading digit run; everything after the first non-digit (such as
the fractional part of "3.7") is discarded; no digits at all is NaN,
modelled as `none`. -/
def jsParseInt (s : String) : Option Int :=
  match s.data with
  | '-' :: rest => (leadingDigits rest none).map (fun n => -(n : Int))
  | '+' :: rest => (leadingDigits rest none).map (fun n => (n : Int))
  | cs => (leadingDigits cs none).map (fun n => (n : Int))

def STORAGE_VERSION : String := "1.0"

/-- The content of the LocalStorage slot under STORAGE_KEY:
absent, unparseable JSON, or a parsed envelope whose `selections` field
is either present as an array or absent/falsy. -/
inductive StoredData where
  | missing
  | malformed
  | envelope (version : String) (selections : Option (List Selection))
deriving Repr, DecidableEq

/-- `loadSelectionsFromStorage` (app.js lines 15-30): returns `[]` when the
key is missing or parsing throws; on a parsed envelope the version check
only logs and the function returns `parsed.selections || []`. -/
def loadSelectionsFromStorage : StoredData → List Selection
  | .missing => []
  | .malformed => []
  | .envelope _ sels => sels.getD []

/-- `saveSelectionsToStorage`: writes the versioned envelope
`{version, selections, lastModified}` (the timestamp is not modelled). -/
def saveSelectionsToStorage (sels : List Selection) : StoredData :=
  .envelope STORAGE_VERSION (some sels)

/-- `catalog.find(c => c.id === courseId)?.ects`, with undefined as 0. -/
def courseEctsOf (catalog : List Course) (courseId : String) : Int :=
  match catalog.find? (fun c => c.id == courseId) with
  | none => 0
  | some c => c.ects

/-- The effective credit the code computes per selection in `summary` and
`area_progress`: `sel.ects || course?.ects || 0`. -/
def selEffectiveEcts (catalog : List Course) (sel : Selection) : Int :=
  jsOrInt (sel.ects.getD 0) (jsOrInt (courseEctsOf catalog sel.course_id) 0)

structure Summary where
  planned_ects : Int
  completed_ects : Int
  progress : ℚ
deriving Repr, DecidableEq

/-- `get summary` (app.js lines 187-205): one pass over the selections
accumulating effective credit, and the completed part of it. -/
def summary (catalog : List Course) (selections : List Selection) : Summary :=
  let plannedEcts := (selections.map (selEffectiveEcts catalog)).sum
  let completedEcts :=
    ((selections.filter (fun s => s.status == "completed")).map
      (selEffectiveEcts catalog)).sum
  { planned_ects := plannedEcts
    completed_ects := completedEcts
    progress := (plannedEcts : ℚ) / 120 }

structure AreaProgressEntry where
  area_id : String
  area_name : String
  min_ects : Nat
  max_ects : Option Int
  required_ects : Option Int
  planned_ects : Int
  progress : ℚ
deriving Repr, DecidableEq

/-- The per-area accumulation `ectsByArea` of `get area_progress`:
selections whose course is found and whose course's
`area_id || 'unassigned'` matches, summing `sel.ects || course.ects || 0`. -/
def areaEctsFor (catalog : List Course) (selections : List Selection)
    (areaId : String) : Int :=
  ((selections.filter (fun s =>
      match catalog.find? (fun c => c.id == s.course_id) with
      | none => false
      | some c => jsOrStr c.area_id "unassigned" == areaId)).map
    (selEffectiveEcts catalog)).sum

/-- `get area_progress` (app.js lines 207-229): `[]` when `rules?.areas` is
absent, else one entry per area rule with
`progress = min(1, (ectsByArea[area.id] || 0) / (area.min_ects || 1))`. -/
def area_progress (catalog : List Course) (rules : Option (List AreaRule))
    (selections : List Selection) : List AreaProgressEntry :=
  match rules with
  | none => []
  | some areas =>
    areas.map (fun area =>
      let planned := areaEctsFor catalog selections area.id
      { area_id := area.id
        area_name := area.name
        min_ects := area.min_ects
        max_ects := area.max_ects
        required_ects := area.required_ects
        planned_ects := jsOrInt planned 0
        progress :=
          min 1 ((jsOrInt planned 0 : ℚ) / (jsOrNat area.min_ects 1 : ℚ)) })

inductive PlanResult where
  | unknownCourse
  | alreadyPlanned
  | variableCreditCourse
  | planned
deriving Repr, DecidableEq

structure PlanOutcome where
  selections : List Selection
  saved : Option StoredData
  result : PlanResult
deriving Repr, DecidableEq

/-- `planCourse` (app.js lines 235-256). The generated selection id
(`generateSelectionId()`, a timestamp-and-random string) is passed in as
the oracle argument `newId`. -/
def planCourse (catalog : List Course) (courseId newId : String)
    (sels : List Selection) : PlanOutcome :=
  match catalog.find? (fun c => c.id == courseId) with
  | none => ⟨sels, none, .unknownCourse⟩
  | some course =>
    if sels.any (fun s => s.course_id == courseId) then
      ⟨sels, none, .alreadyPlanned⟩
    else if course.is_additional_course then
      ⟨sels, none, .variableCreditCourse⟩
    else
      let sels' := sels ++ [⟨courseId, "planned", newId, none⟩]
      ⟨sels', some (saveSelectionsToStorage sels'), .planned⟩

/-- The already-committed credit of a course:
`selections.filter(s => s.course_id === courseId).reduce((sum, s) => sum + (s.ects || 0), 0)`. -/
def committedEcts (courseId : String) (sels : List Selection) : Int :=
  ((sels.filter (fun s => s.course_id == courseId)).map
    (fun s => s.ects.getD 0)).sum

/-- `course.max_ects || 18`. -/
def courseCap (course : Course) : Int := jsOrInt (course.max_ects.getD 0) 18

inductive AddResult where
  | notVariableCourse
  | invalidEcts
  | capacityExceeded (remaining : Int)
  | added
deriving Repr, DecidableEq

structure AddOutcome where
  selections : List Selection
  saved : Option StoredData
  result : AddResult
deriving Repr, DecidableEq

/-- `addAdditionalCourse` (app.js lines 258-288). `raw` is the string
content of the ECTS input field (`additionalCourseEcts[courseId]`); the
code applies `parseInt`, rejects `!ects || ects < 1` (NaN or zero or
below one), then rejects `ects > remaining` with the remaining headroom
in the alert. -/
def addAdditionalCourse (catalog : List Course) (courseId newId : String)
    (raw : String) (sels : List Selection) : AddOutcome :=
  match catalog.find? (fun c => c.id == courseId) with
  | none => ⟨sels, none, .notVariableCourse⟩
  | some course =>
    if !course.is_additional_course then
      ⟨sels, none, .notVariableCourse⟩
    else
      match jsParseInt raw with
      | none => ⟨sels, none, .invalidEcts⟩
      | some ects =>
        if ects = 0 ∨ ects < 1 then ⟨sels, none, .invalidEcts⟩
        else
          let remaining := courseCap course - committedEcts courseId sels
          if ects > remaining then ⟨sels, none, .capacityExceeded remaining⟩
          else
            let sels' := sels ++ [⟨courseId, "planned", newId, some ects⟩]
            ⟨sels', some (saveSelectionsToStorage sels'), .added⟩

/-- `removeCourse` (app.js lines 290-297): `if (selectionId)` is JS
truthiness, so an empty-string id falls back to the course branch. -/
def removeCourse (courseId : String) (selectionId : Option String)
    (sels : List Selection) : List Selection × StoredData :=
  let sels' :=
    if jsTruthyStr selectionId then
      sels.filter (fun s => s.selection_id != selectionId.getD "")
    else
      sels.filter (fun s => s.course_id != courseId)
  (sels', saveSelectionsToStorage sels')

/-- `sel.status === 'completed' ? 'planned' : 'completed'`. -/
def toggleStatus (st : String) : String :=
  if st = "completed" then "planned" else "completed"

/-- The loop of `toggleCompleted`: flip the first matching selection and
stop; with a truthy selectionId only selection_id matches count. -/
def toggleFirst (useSid : Bool) (courseId sid : String) :
    List Selection → List Selection
  | [] => []
  | s :: rest =>
    if useSid then
      if s.selection_id == sid then
        { s with status := toggleStatus s.status } :: rest
      else s :: toggleFirst useSid courseId sid rest
    else
      if s.course_id == courseId then
        { s with status := toggleStatus s.status } :: rest
      else s :: toggleFirst useSid courseId sid rest

/-- `toggleCompleted` (app.js lines 299-310). -/
def toggleCompleted (courseId : String) (selectionId : Option String)
    (sels : List Selection) : List Selection × StoredData :=
  let sels' := toggleFirst (jsTruthyStr selectionId) courseId
    (selectionId.getD "") sels
  (sels', saveSelectionsToStorage sels')

/-- `removeAllPlanned` (app.js lines 312-316): guarded by `confirm(...)`. -/
def removeAllPlanned (confirmed : Bool) (sels : List Selection) :
    List Selection × Option StoredData :=
  if confirmed then ([], some (saveSelectionsToStorage []))
  else (sels, none)

/-- The parsed shape of a backup JSON file: `selections` is `some` exactly
when the field is present as an array (JS arrays are always truthy, so
`data.selections && Array.isArray(data.selections)` is this check). -/
structure BackupFile where
  version : String
  selections : Option (List Selection)
deriving Repr, DecidableEq

/-- What the file reader hands to the import handler. -/
inductive FileData where
  | noFile
  | malformed
  | parsed (file : BackupFile)
deriving Repr, DecidableEq

inductive ImportResult where
  | noFile
  | parseError
  | invalidFile
  | cancelled
  | imported
deriving Repr, DecidableEq

structure ImportOutcome where
  selections : List Selection
  saved : Option StoredData
  result : ImportResult
deriving Repr, DecidableEq

/-- `exportLocalData` (app.js lines 358-371): serializes
`{version, exportDate, selections}`; the date is not modelled. -/
def exportLocalData (sels : List Selection) : BackupFile :=
  ⟨STORAGE_VERSION, some sels⟩

/-- `importLocalData` (app.js lines 373-395): replaces the whole selection
list with the file's `selections` array after user confirmation; no
further validation of the entries. -/
def importLocalData (file : FileData) (confirmed : Bool)
    (sels : List Selection) : ImportOutcome :=
  match file with
  | .noFile => ⟨sels, none, .noFile⟩
  | .malformed => ⟨sels, none, .parseError⟩
  | .parsed f =>
    match f.selections with
    | none => ⟨sels, none, .invalidFile⟩
    | some arr =>
      if confirmed then ⟨arr, some (saveSelectionsToStorage arr), .imported⟩
      else ⟨sels, none, .cancelled⟩

/-- Modelled from the spec: a Selection's effective credit value is `ects`
if non-null, else the referenced CourseRecord's fixed `ects` (0 when the
course is not in the catalog). Used to compare the spec's summary formula
with the code's. -/
def specEffectiveCredit (catalog : List Course) (sel : Selection) : Int :=
  match sel.ects with
  | some e => e
  | none => courseEctsOf catalog sel.course_id

/-- The data-model invariant: at most one Selection references any
fixed-credit (non-variable-credit) catalog course. -/
def FixedAtMostOne (catalog : List Course) (sels : List Selection) : Prop :=
  ∀ c ∈ catalog, c.is_additional_course = false →
    sels.countP (fun s => s.course_id == c.id) ≤ 1

instance instFixedAtMostOneDecidable (catalog : List Course)
    (sels : List Selection) : Decidable (FixedAtMostOne catalog sels) := by
  unfold FixedAtMostOne
  infer_instance

/-- One mutation of the selection store, covering every operation that
writes it. The import case carries the hypothesis that the resulting list
itself satisfies the invariant, since the code accepts the file's
selections without per-entry validation. -/
inductive StoreStep (catalog : List Course) :
    List Selection → List Selection → Prop
  | plan (courseId newId : String) (sels : List Selection) :
      StoreStep catalog sels (planCourse catalog courseId newId sels).selections
  | addVar (courseId newId : String) (raw : String) (sels : List Selection) :
      StoreStep catalog sels
        (addAdditionalCourse catalog courseId newId raw sels).selections
  | remove (courseId : String) (selectionId : Option String)
      (sels : List Selection) :
      StoreStep catalog sels (removeCourse courseId selectionId sels).1
  | toggle (courseId : String) (selectionId : Option String)
      (sels : List Selection) :
      StoreStep catalog sels (toggleCompleted courseId selectionId sels).1
  | removeAll (confirmed : Bool) (sels : List Selection) :
      StoreStep catalog sels (removeAllPlanned confirmed sels).1
  | importData (file : FileData) (confirmed : Bool) (sels : List Selection)
      (h : FixedAtMostOne catalog
        (importLocalData file confirmed sels).selections) :
      StoreStep catalog sels (importLocalData file confirmed sels).selections

/-- Example catalog data used to instantiate the theorems. -/
def exCourseFixed : Course := ⟨"c1", 5, false, none, some "a1"⟩

def exCourseAC : Course := ⟨"ac1", 0, true, some 18, some "a2"⟩

def exCatalog : List Course := [exCourseFixed, exCourseAC]

def exSelEmptyId : Selection := ⟨"c1", "planned", "", none⟩

def exSelB : Selection := ⟨"c1", "planned", "sel_b", none⟩

def exAreaRule : AreaRule := ⟨"a1", "Area One", 30, none, none⟩

/-- C2: counterexample — a stored envelope whose schema version "0.9"
differs from the current version "1.0" is not mapped to the empty list:
the version check only logs, and the stored selections are returned
unchanged. -/
theorem C2_counterexample :
    "0.9" ≠ STORAGE_VERSION ∧
    loadSelectionsFromStorage
        (StoredData.envelope "0.9" (some [⟨"c1", "planned", "s1", none⟩])) =
      [⟨"c1", "planned", "s1", none⟩] :=
  ⟨by decide, rfl⟩

/-- C2 (amended): `loadSelectionsFromStorage` returns the empty list on a
missing key, on a parse failure, and on an envelope without a
`selections` array; on an envelope with a `selections` array it returns
those selections unchanged regardless of the envelope's version. -/
theorem C2_load_graceful :
    loadSelectionsFromStorage StoredData.missing = [] ∧
    loadSelectionsFromStorage StoredData.malformed = [] ∧
    (∀ v : String,
      loadSelectionsFromStorage (StoredData.envelope v none) = []) ∧
    (∀ (v : String) (sels : List Selection),
      loadSelectionsFromStorage (StoredData.envelope v (some sels)) = sels) :=
  ⟨rfl, rfl, fun _ => rfl, fun _ _ => rfl⟩

/-- C9: exporting the local data and importing the resulting backup file
with the user confirming replaces the store with exactly the exported
selection list (same entries, same order) and persists it. -/
theorem C9_backup_roundtrip (sels orig : List Selection) :
    importLocalData (FileData.parsed (exportLocalData sels)) true orig =
      ⟨sels, some (saveSelectionsToStorage sels), ImportResult.imported⟩ :=
  rfl

/-- C10: counterexample — with the non-null argument `some ""` the code's
truthiness test `if (selectionId)` fails, so removal falls back to
course-id matching: `exSelB`, whose selection_id "sel_b" differs from the
argument, is removed anyway (the result is empty, not `[exSelB]`). -/
theorem C10_counterexample :
    (some "" : Option String) ≠ none ∧
    exSelB.selection_id ≠ "" ∧
    (removeCourse "c1" (some "") [exSelEmptyId, exSelB]).1 = [] := by
  refine ⟨by decide, by decide, ?_⟩
  rfl

/-- C10 (amended): for a non-null, non-empty selection_id argument,
`removeCourse` removes exactly the selections whose selection_id equals
the argument, keeps every other selection in relative order, and ignores
the course_id argument entirely. -/
theorem C10_remove_by_selection_id (courseId sid : String)
    (sels : List Selection) (hsid : sid ≠ "") :
    (∀ s ∈ (removeCourse courseId (some sid) sels).1,
      s.selection_id ≠ sid) ∧
    (∀ s ∈ sels, s.selection_id ≠ sid →
      s ∈ (removeCourse courseId (some sid) sels).1) ∧
    List.Sublist (removeCourse courseId (some sid) sels).1 sels ∧
    (∀ courseId2 : String,
      (removeCourse courseId2 (some sid) sels).1 =
        (removeCourse courseId (some sid) sels).1) := by
  have hres : ∀ cid : String, (removeCourse cid (some sid) sels).1 =
      sels.filter (fun s => s.selection_id != sid) := by
    intro cid
    simp [removeCourse, jsTruthyStr, hsid]
  refine ⟨?_, ?_, ?_, ?_⟩
  · intro s hs
    rw [hres] at hs
    simpa using (List.mem_filter.mp hs).2
  · intro s hs hne
    rw [hres]
    exact List.mem_filter.mpr ⟨hs, by simpa using hne⟩
  · rw [hres courseId]
    exact List.filter_sublist _
  · intro c2
    rw [hres c2, hres courseId]

/-- C10 witness: a concrete removal by selection id "sel_b" keeps the
other selection. -/
theorem C10_remove_by_selection_id_witness :
    ("sel_b" : String) ≠ "" ∧
    exSelEmptyId ∈ (removeCourse "c1" (some "sel_b")
      [exSelEmptyId, exSelB]).1 :=
  ⟨by decide,
   (C10_remove_by_selection_id "c1" "sel_b" [exSelEmptyId, exSelB]
      (by decide)).2.1 exSelEmptyId (by decide) (by decide)⟩

/-- C8: when some selection already references the given fixed-credit
course, `planCourse` is a no-op: the store is unchanged and nothing is
saved. -/
theorem C8_plan_noop (catalog : List Course) (courseId newId : String)
    (sels : List Selection) (course : Course)
    (hfind : catalog.find? (fun c => c.id == courseId) = some course)
    (_hfixed : course.is_additional_course = false)
    (hexists : ∃ s ∈ sels, s.course_id = courseId) :
    planCourse catalog courseId newId sels =
      ⟨sels, none, PlanResult.alreadyPlanned⟩ := by
  have hany : sels.any (fun s => s.course_id == courseId) = true := by
    obtain ⟨s, hs, hcid⟩ := hexists
    exact List.any_eq_true.mpr ⟨s, hs, by simpa using hcid⟩
  simp [planCourse, hfind, hany]

/-- C8 witness: planning course "c1" again while `exSelB` references it
leaves the store untouched. -/
theorem C8_plan_noop_witness :
    planCourse exCatalog "c1" "i2" [exSelB] =
      ⟨[exSelB], none, PlanResult.alreadyPlanned⟩ :=
  C8_plan_noop exCatalog "c1" "i2" [exSelB] exCourseFixed (by decide)
    (by decide) ⟨exSelB, by decide, by decide⟩

/-- C7: planning a fixed-credit course with no prior selection appends
exactly one new selection with status "planned", null ects and the
freshly generated id, persists the updated list, and the new id occurs
exactly once in the resulting store. -/
theorem C7_plan_success (catalog : List Course) (courseId newId : String)
    (sels : List Selection) (course : Course)
    (hfind : catalog.find? (fun c => c.id == courseId) = some course)
    (hfixed : course.is_additional_course = false)
    (hnew : ∀ s ∈ sels, s.course_id ≠ courseId)
    (hfresh : ∀ s ∈ sels, s.selection_id ≠ newId) :
    planCourse catalog courseId newId sels =
      ⟨sels ++ [⟨courseId, "planned", newId, none⟩],
       some (saveSelectionsToStorage
         (sels ++ [⟨courseId, "planned", newId, none⟩])),
       PlanResult.planned⟩ ∧
    (sels ++ [(⟨courseId, "planned", newId, none⟩ : Selection)]).countP
        (fun s => s.selection_id == newId) = 1 := by
  have hany : sels.any (fun s => s.course_id == courseId) = false := by
    rw [List.any_eq_false]
    intro s hs
    simpa using hnew s hs
  constructor
  · simp [planCourse, hfind, hany, hfixed]
  · rw [List.countP_append]
    have h0 : sels.countP (fun s => s.selection_id == newId) = 0 :=
      List.countP_eq_zero.mpr (fun s hs => by simpa using hfresh s hs)
    simp [h0, List.countP_cons]

/-- C7 witness: planning "c1" into an empty store creates the single
selection with the fresh id "sel_new". -/
theorem C7_plan_success_witness :
    planCourse exCatalog "c1" "sel_new" [] =
      ⟨[⟨"c1", "planned", "sel_new", none⟩],
       some (saveSelectionsToStorage [⟨"c1", "planned", "sel_new", none⟩]),
       PlanResult.planned⟩ :=
  (C7_plan_success exCatalog "c1" "sel_new" [] exCourseFixed (by decide)
    (by decide) (by simp) (by simp)).1

/-- C3: any variable-credit request whose parsed amount is at least 1 but
exceeds the remaining headroom (cap minus committed credit) is rejected
with a capacity-exceeded error reporting exactly that headroom, and the
store is left unchanged with nothing saved. -/
theorem C3_capacity_rejected (catalog : List Course) (courseId newId : String)
    (raw : String) (sels : List Selection) (course : Course) (ects : Int)
    (hfind : catalog.find? (fun c => c.id == courseId) = some course)
    (hvar : course.is_additional_course = true)
    (hparse : jsParseInt raw = some ects)
    (hpos : 1 ≤ ects)
    (hover : courseCap course - committedEcts courseId sels < ects) :
    addAdditionalCourse catalog courseId newId raw sels =
      ⟨sels, none, AddResult.capacityExceeded
        (courseCap course - committedEcts courseId sels)⟩ := by
  have hne : ¬(ects = 0 ∨ ects < 1) := by omega
  simp [addAdditionalCourse, hfind, hvar, hparse, hne, hover]

/-- C3 witness: on the variable-credit course with max_ects 18 and an
empty store, requesting 10 succeeds, and then requesting 9 is rejected
with remaining headroom 8, the store keeping only the first selection. -/
theorem C3_capacity_rejected_witness :
    (addAdditionalCourse exCatalog "ac1" "i1" "10" []).selections =
      [⟨"ac1", "planned", "i1", some 10⟩] ∧
    courseCap exCourseAC -
      committedEcts "ac1" [⟨"ac1", "planned", "i1", some 10⟩] = 8 ∧
    addAdditionalCourse exCatalog "ac1" "i2" "9"
        [⟨"ac1", "planned", "i1", some 10⟩] =
      ⟨[⟨"ac1", "planned", "i1", some 10⟩], none,
       AddResult.capacityExceeded 8⟩ := by
  refine ⟨by decide, by decide, ?_⟩
  have h := C3_capacity_rejected exCatalog "ac1" "i2" "9"
    [⟨"ac1", "planned", "i1", some 10⟩] exCourseAC 9 (by decide) (by decide)
    (by decide) (by decide) (by decide)
  rw [show courseCap exCourseAC -
      committedEcts "ac1" [⟨"ac1", "planned", "i1", some 10⟩] = 8
    from by decide] at h
  exact h

/-- C4: counterexample — the non-integer request "3.7" is not rejected:
parseInt truncates it to 3 and a selection with ects 3 is created
(the claim requires a validation error and no state change). -/
theorem C4_counterexample :
    jsParseInt "3.7" = some 3 ∧
    addAdditionalCourse exCatalog "ac1" "i1" "3.7" [] =
      ⟨[⟨"ac1", "planned", "i1", some 3⟩],
       some (saveSelectionsToStorage [⟨"ac1", "planned", "i1", some 3⟩]),
       AddResult.added⟩ := by
  refine ⟨by decide, ?_⟩
  rfl

/-- C4 (amended): on a variable-credit course, `addAdditionalCourse`
signals a validation error and leaves the store unchanged whenever the
request parses to NaN (missing or non-numeric field) or its parseInt
truncation is below 1; it does not reject non-integer numerals as such —
a selection is created only when the truncated amount is at least 1, and
it carries that truncated amount. -/
theorem C4_validation (catalog : List Course) (courseId newId : String)
    (raw : String) (sels : List Selection) (course : Course)
    (hfind : catalog.find? (fun c => c.id == courseId) = some course)
    (hvar : course.is_additional_course = true) :
    (jsParseInt raw = none →
      addAdditionalCourse catalog courseId newId raw sels =
        ⟨sels, none, AddResult.invalidEcts⟩) ∧
    (∀ ects : Int, jsParseInt raw = some ects → ects < 1 →
      addAdditionalCourse catalog courseId newId raw sels =
        ⟨sels, none, AddResult.invalidEcts⟩) ∧
    ((addAdditionalCourse catalog courseId newId raw sels).result =
        AddResult.added →
      ∃ ects : Int, jsParseInt raw = some ects ∧ 1 ≤ ects ∧
        (addAdditionalCourse catalog courseId newId raw sels).selections =
          sels ++ [⟨courseId, "planned", newId, some ects⟩]) := by
  refine ⟨?_, ?_, ?_⟩
  · intro hnan
    simp [addAdditionalCourse, hfind, hvar, hnan]
  · intro ects hparse hlt
    have hok : ects = 0 ∨ ects < 1 := Or.inr hlt
    simp [addAdditionalCourse, hfind, hvar, hparse, hok]
  · intro hadded
    rcases hparse : jsParseInt raw with _ | ects
    · simp [addAdditionalCourse, hfind, hvar, hparse] at hadded
    · by_cases hlow : ects = 0 ∨ ects < 1
      · simp [addAdditionalCourse, hfind, hvar, hparse, hlow] at hadded
      · refine ⟨ects, rfl, by omega, ?_⟩
        by_cases hcap : courseCap course - committedEcts courseId sels < ects
        · simp [addAdditionalCourse, hfind, hvar, hparse, hlow, hcap]
            at hadded
        · simp [addAdditionalCourse, hfind, hvar, hparse, hlow, hcap]

/-- C4 witness: the request "0.5" truncates to 0 and is rejected with no
state change. -/
theorem C4_validation_witness :
    jsParseInt "0.5" = some 0 ∧
    addAdditionalCourse exCatalog "ac1" "i1" "0.5" [] =
      ⟨[], none, AddResult.invalidEcts⟩ :=
  ⟨by decide,
   (C4_validation exCatalog "ac1" "i1" "0.5" [] exCourseAC (by decide)
      (by decide)).2.1 0 (by decide) (by decide)⟩

lemma jsOrInt_zero_left (b : Int) : jsOrInt 0 b = b := by
  simp [jsOrInt]

lemma jsOrInt_zero_right (a : Int) : jsOrInt a 0 = a := by
  by_cases h : a = 0 <;> simp [jsOrInt, h]

/-- The code's `sel.ects || course?.ects || 0` agrees with the spec's
effective-credit rule exactly when the selection's ects is not the
(falsy) literal 0. -/
lemma selEffective_eq_spec (catalog : List Course) (s : Selection)
    (hnz : s.ects ≠ some 0) :
    selEffectiveEcts catalog s = specEffectiveCredit catalog s := by
  rcases h : s.ects with _ | e
  · simp [selEffectiveEcts, specEffectiveCredit, h, jsOrInt_zero_left,
      jsOrInt_zero_right]
  · have hne : e ≠ 0 := by
      intro he
      exact hnz (by rw [h, he])
    simp [selEffectiveEcts, specEffectiveCredit, h, jsOrInt,
      jsOrInt_zero_right, hne]

/-- C5: counterexample — a selection with the non-null ects 0 on the
fixed-credit course "c1" (ects 5): the code's planned_ects is 5
(`0 || 5`), while the spec's sum of effective credits is 0. -/
theorem C5_counterexample :
    (exCatalog.find? (fun c => c.id == "c1")).isSome = true ∧
    (summary exCatalog [⟨"c1", "planned", "s1", some 0⟩]).planned_ects = 5 ∧
    (([⟨"c1", "planned", "s1", some 0⟩] : List Selection).map
      (specEffectiveCredit exCatalog)).sum = 0 ∧
    (5 : Int) ≠ 0 := by
  decide

/-- C5 (amended): when every selection's course is in the catalog and no
selection carries the non-null ects value 0, `summary` computes
planned_ects as the spec's sum of effective credits, completed_ects as
that sum restricted to completed selections, and progress as
planned_ects / 120 with no upper clamp. -/
theorem C5_summary_correct (catalog : List Course) (sels : List Selection)
    (_href : ∀ s ∈ sels,
      (catalog.find? (fun c => c.id == s.course_id)).isSome = true)
    (hnz : ∀ s ∈ sels, s.ects ≠ some 0) :
    (summary catalog sels).planned_ects =
      (sels.map (specEffectiveCredit catalog)).sum ∧
    (summary catalog sels).completed_ects =
      ((sels.filter (fun s => s.status == "completed")).map
        (specEffectiveCredit catalog)).sum ∧
    (summary catalog sels).progress =
      ((sels.map (specEffectiveCredit catalog)).sum : ℚ) / 120 := by
  have hmap : sels.map (selEffectiveEcts catalog) =
      sels.map (specEffectiveCredit catalog) :=
    List.map_congr_left (fun s hs => selEffective_eq_spec catalog s (hnz s hs))
  have hmapf : (sels.filter (fun s => s.status == "completed")).map
        (selEffectiveEcts catalog) =
      (sels.filter (fun s => s.status == "completed")).map
        (specEffectiveCredit catalog) :=
    List.map_congr_left (fun s hs =>
      selEffective_eq_spec catalog s (hnz s (List.mem_of_mem_filter hs)))
  refine ⟨?_, ?_, ?_⟩
  · simp [summary, hmap]
  · simp [summary, hmapf]
  · simp [summary, hmap]

/-- C5 witness: a mixed fixed/variable selection list on the example
catalog, with the summary matching the spec's sum. -/
theorem C5_summary_correct_witness :
    (summary exCatalog [⟨"c1", "completed", "s1", none⟩,
        ⟨"ac1", "planned", "s2", some 4⟩]).planned_ects =
      (([⟨"c1", "completed", "s1", none⟩,
         ⟨"ac1", "planned", "s2", some 4⟩] : List Selection).map
        (specEffectiveCredit exCatalog)).sum :=
  (C5_summary_correct exCatalog [⟨"c1", "completed", "s1", none⟩,
      ⟨"ac1", "planned", "s2", some 4⟩] (by decide) (by decide)).1

lemma one_le_jsOrNat_one (m : Nat) : 1 ≤ jsOrNat m 1 := by
  by_cases h : m = 0 <;> simp [jsOrNat, h]
  omega

/-- C6: every entry of `area_progress` has progress at most 1, and the
divisor it uses (`min_ects || 1`) is at least 1, hence never zero. -/
theorem C6_area_progress_capped (catalog : List Course)
    (rules : Option (List AreaRule)) (sels : List Selection)
    (entry : AreaProgressEntry)
    (hmem : entry ∈ area_progress catalog rules sels) :
    entry.progress ≤ 1 ∧ 1 ≤ jsOrNat entry.min_ects 1 ∧
    ((jsOrNat entry.min_ects 1 : ℚ) ≠ 0) := by
  rcases rules with _ | areas
  · simp [area_progress] at hmem
  · simp only [area_progress] at hmem
    obtain ⟨area, _hmemArea, hEq⟩ := List.mem_map.mp hmem
    subst hEq
    refine ⟨min_le_left _ _, one_le_jsOrNat_one _, ?_⟩
    have h1 : 1 ≤ jsOrNat area.min_ects 1 := one_le_jsOrNat_one _
    exact_mod_cast Nat.pos_iff_ne_zero.mp h1

/-- C6 witness: the single area rule "a1" over the empty selection list
yields an entry whose progress is at most 1. -/
theorem C6_area_progress_capped_witness :
    (⟨"a1", "Area One", 30, none, none,
       jsOrInt (areaEctsFor exCatalog [] "a1") 0,
       min 1 ((jsOrInt (areaEctsFor exCatalog [] "a1") 0 : ℚ) /
         (jsOrNat 30 1 : ℚ))⟩ : AreaProgressEntry) ∈
      area_progress exCatalog (some [exAreaRule]) [] ∧
    AreaProgressEntry.progress
      ⟨"a1", "Area One", 30, none, none,
       jsOrInt (areaEctsFor exCatalog [] "a1") 0,
       min 1 ((jsOrInt (areaEctsFor exCatalog [] "a1") 0 : ℚ) /
         (jsOrNat 30 1 : ℚ))⟩ ≤ 1 := by
  have hmem : (⟨"a1", "Area One", 30, none, none,
      jsOrInt (areaEctsFor exCatalog [] "a1") 0,
      min 1 ((jsOrInt (areaEctsFor exCatalog [] "a1") 0 : ℚ) /
        (jsOrNat 30 1 : ℚ))⟩ : AreaProgressEntry) ∈
      area_progress exCatalog (some [exAreaRule]) [] :=
    List.Mem.head _
  exact ⟨hmem,
    (C6_area_progress_capped exCatalog (some [exAreaRule]) [] _ hmem).1⟩

lemma eq_of_nodup_ids {catalog : List Course}
    (hnodup : (catalog.map (fun c => c.id)).Nodup) {c₁ c₂ : Course}
    (h1 : c₁ ∈ catalog) (h2 : c₂ ∈ catalog) (hid : c₁.id = c₂.id) :
    c₁ = c₂ :=
  List.inj_on_of_nodup_map hnodup h1 h2 hid

lemma FixedAtMostOne_of_sublist {catalog : List Course}
    {l₁ l₂ : List Selection} (hsub : List.Sublist l₁ l₂)
    (h : FixedAtMostOne catalog l₂) : FixedAtMostOne catalog l₁ :=
  fun c hc hfix => le_trans (hsub.countP_le _) (h c hc hfix)

/-- Flipping a status never changes any per-course selection count. -/
lemma countP_toggleFirst (u : Bool) (cid sid : String) (p : String → Bool)
    (l : List Selection) :
    (toggleFirst u cid sid l).countP (fun s => p s.course_id) =
      l.countP (fun s => p s.course_id) := by
  induction l with
  | nil => rfl
  | cons s rest ih =>
    simp only [toggleFirst]
    split
    · split
      · simp [List.countP_cons]
      · simp [List.countP_cons, ih]
    · split
      · simp [List.countP_cons]
      · simp [List.countP_cons, ih]

/-- `planCourse` preserves the at-most-one invariant: it only appends a
selection for a course that had none. -/
lemma plan_preserves_inv (catalog : List Course) (courseId newId : String)
    (sels : List Selection) (hinv : FixedAtMostOne catalog sels) :
    FixedAtMostOne catalog
      (planCourse catalog courseId newId sels).selections := by
  rcases hfind : catalog.find? (fun c => c.id == courseId) with _ | course
  · simpa [planCourse, hfind] using hinv
  · by_cases hany : sels.any (fun s => s.course_id == courseId) = true
    · simpa [planCourse, hfind, hany] using hinv
    · rw [Bool.not_eq_true] at hany
      by_cases hadd : course.is_additional_course = true
      · simpa [planCourse, hfind, hany, hadd] using hinv
      · rw [Bool.not_eq_true] at hadd
        simp only [planCourse, hfind, hany, hadd, Bool.false_eq_true,
          if_false]
        intro c hc hfix
        rw [List.countP_append]
        by_cases hcc : courseId = c.id
        · have hz : sels.countP (fun s => s.course_id == c.id) = 0 := by
            apply List.countP_eq_zero.mpr
            intro s hs
            have hne := List.any_eq_false.mp hany s hs
            simp only [beq_iff_eq] at hne ⊢
            rw [← hcc]
            exact hne
          simp [List.countP_cons, hz, hcc]
        · have hfalse :
              ((⟨courseId, "planned", newId, none⟩ : Selection).course_id ==
                c.id) = false := by
            simpa using hcc
          simp [List.countP_cons, hfalse]
          exact hinv c hc hfix

/-- `addAdditionalCourse` preserves the at-most-one invariant when the
catalog's ids are distinct: it only ever appends a selection for a
variable-credit course. -/
lemma addVar_preserves_inv (catalog : List Course)
    (courseId newId raw : String) (sels : List Selection)
    (hnodup : (catalog.map (fun c => c.id)).Nodup)
    (hinv : FixedAtMostOne catalog sels) :
    FixedAtMostOne catalog
      (addAdditionalCourse catalog courseId newId raw sels).selections := by
  rcases hfind : catalog.find? (fun c => c.id == courseId) with _ | course
  · simpa [addAdditionalCourse, hfind] using hinv
  · by_cases hadd : course.is_additional_course = true
    · rcases hparse : jsParseInt raw with _ | ects
      · simpa [addAdditionalCourse, hfind, hadd, hparse] using hinv
      · by_cases hlow : ects = 0 ∨ ects < 1
        · simpa [addAdditionalCourse, hfind, hadd, hparse, hlow] using hinv
        · by_cases hcap :
              courseCap course - committedEcts courseId sels < ects
          · simpa [addAdditionalCourse, hfind, hadd, hparse, hlow, hcap]
              using hinv
          · simp only [addAdditionalCourse, hfind, hadd, hparse, hlow, hcap]
            simp only [Bool.not_true, Bool.false_eq_true, if_false,
              ite_false, if_neg hlow, if_neg hcap]
            intro c hc hfix
            rw [List.countP_append]
            have hne : ¬(courseId = c.id) := by
              intro hcc
              have hmem : course ∈ catalog :=
                List.mem_of_find?_eq_some hfind
              have hcid : course.id = courseId := by
                have hpred := List.find?_some hfind
                simpa using hpred
              have hceq : c = course :=
                eq_of_nodup_ids hnodup hc hmem (by rw [hcid]; exact hcc.symm)
              rw [hceq] at hfix
              rw [hfix] at hadd
              exact Bool.false_ne_true hadd
            have hfalse :
                ((⟨courseId, "planned", newId, some ects⟩ : Selection).course_id
                  == c.id) = false := by
              simpa using hne
            simp [List.countP_cons, hfalse]
            exact hinv c hc hfix
    · rw [Bool.not_eq_true] at hadd
      simpa [addAdditionalCourse, hfind, hadd] using hinv

/-- C1: counterexample — from the invariant-satisfying empty store, the
backup-import operation (user confirming) installs a file containing two
selections of the same fixed-credit course "c1" without validation,
reaching a state that violates the at-most-one invariant. -/
theorem C1_counterexample :
    FixedAtMostOne exCatalog [] ∧
    (importLocalData
        (FileData.parsed ⟨"1.0",
          some [⟨"c1", "planned", "x1", none⟩,
                ⟨"c1", "planned", "x2", none⟩]⟩)
        true []).selections =
      [⟨"c1", "planned", "x1", none⟩, ⟨"c1", "planned", "x2", none⟩] ∧
    ¬ FixedAtMostOne exCatalog
        [⟨"c1", "planned", "x1", none⟩, ⟨"c1", "planned", "x2", none⟩] := by
  refine ⟨by decide, rfl, by decide⟩

/-- C1 (amended): over a catalog with distinct course ids, every
store-writing operation — plan, addVariableCredit, remove,
toggleCompleted, removeAll — preserves the invariant that at most one
selection references any fixed-credit course; backup import, which
replaces the store with the file's unvalidated contents, preserves it
exactly when the imported list itself satisfies it. -/
theorem C1_invariant_preserved (catalog : List Course)
    (s1 s2 : List Selection)
    (hnodup : (catalog.map (fun c => c.id)).Nodup)
    (hinv : FixedAtMostOne catalog s1)
    (hstep : StoreStep catalog s1 s2) :
    FixedAtMostOne catalog s2 := by
  cases hstep with
  | plan courseId newId =>
    exact plan_preserves_inv catalog courseId newId s1 hinv
  | addVar courseId newId raw =>
    exact addVar_preserves_inv catalog courseId newId raw s1 hnodup hinv
  | remove courseId selectionId =>
    have hsub : List.Sublist (removeCourse courseId selectionId s1).1 s1 := by
      unfold removeCourse
      split
      · exact List.filter_sublist _
      · exact List.filter_sublist _
    exact FixedAtMostOne_of_sublist hsub hinv
  | toggle courseId selectionId =>
    intro c hc hfix
    have hcount := countP_toggleFirst (jsTruthyStr selectionId) courseId
      (selectionId.getD "") (fun x => x == c.id) s1
    calc (toggleCompleted courseId selectionId s1).1.countP
          (fun s => s.course_id == c.id) =
        s1.countP (fun s => s.course_id == c.id) := hcount
      _ ≤ 1 := hinv c hc hfix
  | removeAll confirmed =>
    by_cases h : confirmed = true
    · intro c hc hfix
      simp [removeAllPlanned, h]
    · rw [Bool.not_eq_true] at h
      simpa [removeAllPlanned, h] using hinv
  | importData file confirmed sels h =>
    exact h

/-- C1 witness: a concrete plan step from the empty store on the example
catalog keeps the invariant. -/
theorem C1_invariant_preserved_witness :
    (exCatalog.map (fun c => c.id)).Nodup ∧
    FixedAtMostOne exCatalog [] ∧
    FixedAtMostOne exCatalog
      (planCourse exCatalog "c1" "i1" []).selections :=
  ⟨by decide, by decide,
   C1_invariant_preserved exCatalog []
     (planCourse exCatalog "c1" "i1" []).selections (by decide) (by decide)
     (StoreStep.plan "c1" "i1" [])⟩

end Planner
